import Mathlib

/-!
Verification of the MarqetSim agent cognitive-interaction engine.

Shallow embedding of the core of the repository:
* `EpisodicMemory` windowed retrieval (`src/marqetsim/memory/episodic.py`),
* the RAG text chunker (`src/marqetsim/memory/rag.py`),
* the `Person` agent: `listen`, `define` and the `act` loop
  (`src/marqetsim/agent/person.py`),
* the Anthropic client's JSON response coercion (`src/marqetsim/llm/anthropic.py`),
* the OpenAI client's retry/backoff loop (`src/marqetsim/llm/openai.py`).

Python lists are `List`, Python dicts are structures, machine floats used for
waiting times are modelled by `ℚ`, fallible operations return `Option`.
-/

/-! ## Episodic memory (`src/marqetsim/memory/episodic.py`) -/

/-- An entry of a retrieval result: either a value that was stored in the
memory log, or the sentinel dict `EpisodicMemory.MEMORY_BLOCK_OMISSION_INFO`
(`episodic.py` lines 19-23) signalling omitted content. -/
inductive MemItem (α : Type) where
  | stored (v : α)
  | omissionInfo
deriving DecidableEq

/-- The `omisssion_info` list computed at the top of each retrieval method:
`[MEMORY_BLOCK_OMISSION_INFO] if include_omission_info else []`. -/
def omission_block (α : Type) (includeOmissionInfo : Bool) : List (MemItem α) :=
  if includeOmissionInfo then [MemItem.omissionInfo] else []

/-- Python's negative-index slice `memory[-n:]`.  Because `-0 == 0`, `n = 0`
yields the whole list; otherwise the last `min n (length memory)` elements. -/
def pyLastSlice (memory : List α) (n : Nat) : List α :=
  if n = 0 then memory else memory.drop (memory.length - n)

/-- Source `EpisodicMemory.retrieve_first` (`episodic.py` lines 127-135):
`self.memory[:n] + omisssion_info`.  The source's `include_omission_info`
parameter defaults to `True`. -/
def retrieve_first (memory : List α) (n : Nat) (includeOmissionInfo : Bool) :
    List (MemItem α) :=
  (memory.take n).map MemItem.stored ++ omission_block α includeOmissionInfo

/-- Source `EpisodicMemory.retrieve_last` (`episodic.py` lines 137-145):
`omisssion_info + self.memory[-n:]`.  The source's `include_omission_info`
parameter defaults to `True`. -/
def retrieve_last (memory : List α) (n : Nat) (includeOmissionInfo : Bool) :
    List (MemItem α) :=
  omission_block α includeOmissionInfo ++ (pyLastSlice memory n).map MemItem.stored

/-- Source `EpisodicMemory.retrieve_all` (`episodic.py` lines 115-119). -/
def retrieve_all (memory : List α) : List (MemItem α) :=
  memory.map MemItem.stored

/-- Source `EpisodicMemory.retrieve` (`episodic.py` lines 56-91).  When both bounds
are present the source returns
`self.retrieve_first(first_n) + omisssion_info + self.retrieve_last(last_n)`,
calling `retrieve_first` and `retrieve_last` WITHOUT overriding their own
`include_omission_info=True` defaults. -/
def retrieve (memory : List α) (first_n last_n : Option Nat)
    (includeOmissionInfo : Bool) : List (MemItem α) :=
  match first_n, last_n with
  | some f, some l =>
      retrieve_first memory f true ++ omission_block α includeOmissionInfo ++
        retrieve_last memory l true
  | some f, none => retrieve_first memory f includeOmissionInfo
  | none, some l => retrieve_last memory l includeOmissionInfo
  | none, none => retrieve_all memory

/-- Source `EpisodicMemory.retrieve_recent` (`episodic.py` lines 93-113).
`fixed_prefix = self.memory[:fixed_prefix_length] + omisssion_info`;
`remaining_lookback = min(len(self.memory) - len(fixed_prefix), lookback_length)`
(computed in `ℤ`, since the Python difference can be negative); the prefix
alone is returned when `remaining_lookback <= 0`, otherwise
`fixed_prefix + self.memory[-remaining_lookback:]`. -/
def retrieve_recent (memory : List α) (fixedPrefixLength lookbackLength : Nat)
    (includeOmissionInfo : Bool) : List (MemItem α) :=
  let fixed_prefix :=
    (memory.take fixedPrefixLength).map MemItem.stored ++
      omission_block α includeOmissionInfo
  let remaining_lookback : Int :=
    min ((memory.length : Int) - fixed_prefix.length) (lookbackLength : Int)
  if remaining_lookback ≤ 0 then fixed_prefix
  else fixed_prefix ++ (pyLastSlice memory remaining_lookback.toNat).map MemItem.stored

/-- C4 counterexample: on the five-element log `[0, 1, 2, 3, 4]` with
`first_n = 1`, `last_n = 1` (bounds that do not cover the log),
`retrieve` returns THREE adjacent omission sentinels, not the single
sentinel the claim asserts. -/
theorem c4_retrieve_single_sentinel_counterexample :
    retrieve [0, 1, 2, 3, 4] (some 1) (some 1) true =
      [MemItem.stored 0, MemItem.omissionInfo, MemItem.omissionInfo,
        MemItem.omissionInfo, MemItem.stored 4] ∧
    retrieve [0, 1, 2, 3, 4] (some 1) (some 1) true ≠
      [MemItem.stored 0, MemItem.omissionInfo, MemItem.stored 4] := by
  constructor
  · decide
  · decide

/-- C4 (amended): for bounds `first_n + last_n < length` (not covering the
log) with `last_n ≥ 1`, `retrieve(first_n, last_n, include_omission_info=True)`
returns the `first_n` earliest events, then exactly THREE omission sentinels
(one from `retrieve_first`, one inserted by `retrieve`, one from
`retrieve_last`), then the `last_n` latest events, in that order. -/
theorem c4_retrieve_both_bounds_three_sentinels (memory : List α) (f l : Nat)
    (_hcover : f + l < memory.length) (hl : 0 < l) :
    retrieve memory (some f) (some l) true =
      (memory.take f).map MemItem.stored ++
        [MemItem.omissionInfo, MemItem.omissionInfo, MemItem.omissionInfo] ++
        (memory.drop (memory.length - l)).map MemItem.stored := by
  have hlne : l ≠ 0 := Nat.pos_iff_ne_zero.mp hl
  simp [retrieve, retrieve_first, retrieve_last, omission_block, pyLastSlice, hlne]

/-- C4 witness: the amended theorem applied to the concrete log
`[0, 1, 2, 3, 4]` with `first_n = 1`, `last_n = 1`. -/
theorem c4_retrieve_both_bounds_three_sentinels_witness :
    retrieve [0, 1, 2, 3, 4] (some 1) (some 1) true =
      [MemItem.stored 0, MemItem.omissionInfo, MemItem.omissionInfo,
        MemItem.omissionInfo, MemItem.stored 4] :=
  (c4_retrieve_both_bounds_three_sentinels [0, 1, 2, 3, 4] 1 1 (by decide)
    (by decide)).trans (by decide)

/-- C5 counterexample: a one-event log with `fixed_prefix_length = 100`
(so nothing is skipped) still gets the omission sentinel appended:
`retrieve_recent` is NOT the stored events alone. -/
theorem c5_retrieve_recent_no_sentinel_counterexample :
    retrieve_recent [(0 : Nat)] 100 100 true =
      [MemItem.stored 0, MemItem.omissionInfo] ∧
    retrieve_recent [(0 : Nat)] 100 100 true ≠ [MemItem.stored 0] := by
  constructor
  · decide
  · decide

/-- C5 (amended): when the log does not exceed `fixed_prefix_length`, the
remaining lookback size `min(len(memory) - len(fixed_prefix), lookback)` is
negative (the fixed prefix already carries the sentinel, making it longer
than the log), so `retrieve_recent` returns the whole log FOLLOWED BY ONE
OMISSION SENTINEL — the sentinel is appended unconditionally, not omitted. -/
theorem c5_retrieve_recent_short_log (memory : List α)
    (fixedPrefixLength lookbackLength : Nat)
    (hshort : memory.length ≤ fixedPrefixLength) :
    retrieve_recent memory fixedPrefixLength lookbackLength true =
      memory.map MemItem.stored ++ [MemItem.omissionInfo] := by
  have htake : memory.take fixedPrefixLength = memory :=
    List.take_of_length_le hshort
  have hcond : min ((memory.length : Int) -
      ((memory.map (MemItem.stored (α := α))) ++
        omission_block α true).length) (lookbackLength : Int) ≤ 0 := by
    refine le_trans (min_le_left _ _) ?_
    simp [omission_block]
  simp only [retrieve_recent, htake]
  rw [if_pos hcond]
  simp [omission_block]

/-- C5 witness: the amended theorem applied to the one-event log `[0]` with
`fixed_prefix_length = lookback_length = 100`. -/
theorem c5_retrieve_recent_short_log_witness :
    retrieve_recent [(0 : Nat)] 100 100 true =
      [MemItem.stored 0, MemItem.omissionInfo] :=
  (c5_retrieve_recent_short_log [(0 : Nat)] 100 100 (by decide)).trans (by decide)

/-! ## RAG text chunking (`src/marqetsim/memory/rag.py`) -/

/-- The body of `chunk_text`'s `while start < len(text)` loop
(`rag.py` lines 13-18): append `text[start:end]` with
`end = start + chunk_size`, then `start += chunk_size - overlap`.
`fuel` bounds the number of iterations; since each iteration advances
`start` by `chunk_size - overlap ≥ 1` (the loop diverges in the source when
`overlap ≥ chunk_size`, modelled here by returning no further chunks),
`fuel = text.length` always suffices. -/
def chunk_text_loop (text : List Char) (chunk_size overlap : Nat) :
    Nat → Nat → List (List Char)
  | 0, _ => []
  | fuel + 1, start =>
    if start < text.length then
      if overlap < chunk_size then
        ((text.drop start).take chunk_size) ::
          chunk_text_loop text chunk_size overlap fuel (start + (chunk_size - overlap))
      else []
    else []

/-- Source `chunk_text(text, chunk_size, overlap)` (`rag.py` lines 11-19): splits
`text` into overlapping windows of length `chunk_size` stepping by
`chunk_size - overlap`, starting at `start = 0`. -/
def chunk_text (text : List Char) (chunk_size overlap : Nat) : List (List Char) :=
  chunk_text_loop text chunk_size overlap text.length 0

/-- Reconstruction described by the claim: concatenate the chunks, stripping
the first `overlap` characters from every chunk after the first. -/
def reconstruct_chunks (chunks : List (List Char)) (overlap : Nat) : List Char :=
  match chunks with
  | [] => []
  | c :: rest => c ++ (rest.map (List.drop overlap)).flatten

/-- Stripping `overlap` characters from every chunk produced from offset
`start` onwards and concatenating yields `text.drop (start + overlap)`. -/
theorem chunk_text_loop_join_drop (text : List Char) (W O : Nat) (hov : O < W) :
    ∀ fuel start, text.length - start ≤ fuel →
      ((chunk_text_loop text W O fuel start).map (List.drop O)).flatten =
        text.drop (start + O) := by
  intro fuel
  induction fuel with
  | zero =>
    intro start hfuel
    have hlen : text.length ≤ start + O := by omega
    simp [chunk_text_loop, List.drop_eq_nil_of_le hlen]
  | succ n ih =>
    intro start hfuel
    by_cases hstart : start < text.length
    · have hrec := ih (start + (W - O)) (by omega)
      simp only [chunk_text_loop, if_pos hstart, if_pos hov, List.map_cons,
        List.flatten_cons, hrec]
      have harith : start + (W - O) + O = start + W := by omega
      rw [harith]
      rw [List.drop_take, List.drop_drop]
      have hsplit : text.drop (start + W) =
          (text.drop (O + start)).drop (W - O) := by
        rw [List.drop_drop]
        congr 1
        omega
      rw [hsplit]
      have hcomm : start + O = O + start := by omega
      rw [hcomm, List.take_append_drop]
    · have hlen : text.length ≤ start + O := by omega
      simp [chunk_text_loop, if_neg hstart, List.drop_eq_nil_of_le hlen]

/-- C7: for every text and window parameters with `overlap < chunk_size`,
concatenating the chunks of `chunk_text` while stripping the first
`overlap` characters from every chunk after the first reproduces the
original text exactly. -/
theorem c7_chunk_text_reconstruct (text : List Char) (chunk_size overlap : Nat)
    (hov : overlap < chunk_size) :
    reconstruct_chunks (chunk_text text chunk_size overlap) overlap = text := by
  rcases hlen : text.length with _ | n
  · have htext : text = [] := List.length_eq_zero.mp hlen
    subst htext
    simp [chunk_text, chunk_text_loop, reconstruct_chunks]
  · have hpos : 0 < text.length := by omega
    rw [chunk_text, hlen]
    simp only [chunk_text_loop]
    rw [if_pos hpos, if_pos hov]
    simp only [reconstruct_chunks]
    have hjoin := chunk_text_loop_join_drop text chunk_size overlap hov n
      (0 + (chunk_size - overlap)) (by omega)
    rw [hjoin]
    have harith : 0 + (chunk_size - overlap) + overlap = chunk_size := by omega
    rw [harith]
    simp [List.take_append_drop]

/-- C7 witness: the reconstruction theorem applied to the concrete text
`"abcdef"` with window 3 and overlap 1 (chunks `"abc"`, `"cde"`, `"ef"`). -/
theorem c7_chunk_text_reconstruct_witness :
    chunk_text "abcdef".data 3 1 = ["abc".data, "cde".data, "ef".data] ∧
    reconstruct_chunks (chunk_text "abcdef".data 3 1) 1 = "abcdef".data :=
  ⟨by decide, c7_chunk_text_reconstruct "abcdef".data 3 1 (by decide)⟩

/-! ## `textwrap.dedent`, used by `Person.define`

`Person.define` (`person.py` lines 70-75) stores string values as
`textwrap.dedent(value)`.  The model below follows CPython's `textwrap.dedent`:
split on newlines, blank out whitespace-only lines, compute the longest common
leading run of spaces/tabs over the lines that have content, and strip it. -/

/-- Source `text.split('\n')` on character lists. -/
def splitLines : List Char → List (List Char)
  | [] => [[]]
  | '\n' :: rest => [] :: splitLines rest
  | c :: rest =>
    match splitLines rest with
    | s :: ss => (c :: s) :: ss
    | [] => [[c]]

/-- Source `'\n'.join(lines)` on character lists. -/
def joinLines : List (List Char) → List Char
  | [] => []
  | [l] => l
  | l :: ls => l ++ '\n' :: joinLines ls

/-- A line matched by CPython's `_whitespace_only_re` (`^[ \t]+$`): nonempty
and made only of spaces and tabs. -/
def isWhitespaceOnlyLine (l : List Char) : Bool :=
  !l.isEmpty && l.all (fun c => c == ' ' || c == '\t')

/-- Whether a line contains a character outside `[ \t]` (it then contributes
an indent via `_leading_whitespace_re`). -/
def hasContentChar (l : List Char) : Bool :=
  l.any (fun c => !(c == ' ' || c == '\t'))

/-- The leading run of spaces/tabs of a line. -/
def leadingWhitespaceRun (l : List Char) : List Char :=
  l.takeWhile (fun c => c == ' ' || c == '\t')

/-- Longest common prefix of two character lists — the net effect of
`dedent`'s margin-narrowing loop. -/
def commonPrefix : List Char → List Char → List Char
  | a :: as, b :: bs => if a = b then a :: commonPrefix as bs else []
  | _, _ => []

/-- CPython `textwrap.dedent(text)`: whitespace-only lines are normalized to
empty, the margin is the common leading whitespace of all content lines, and
the margin is removed from every line that starts with it. -/
def dedent (text : List Char) : List Char :=
  let blanked := (splitLines text).map
    (fun l => if isWhitespaceOnlyLine l then [] else l)
  let indents := (blanked.filter hasContentChar).map leadingWhitespaceRun
  let margin :=
    match indents with
    | [] => []
    | i :: is => is.foldl commonPrefix i
  let stripped :=
    if margin.isEmpty then blanked
    else blanked.map (fun l =>
      if margin.isPrefixOf l then l.drop margin.length else l)
  joinLines stripped

/-- Source `textwrap.dedent` on `String`. -/
def dedentStr (s : String) : String :=
  String.mk (dedent s.data)

/-- A persona attribute value: a Python `str`, or a non-string value
(numbers and lists of strings cover the persona schema of the repository's
examples). `Person.define` treats only the `str` case specially. -/
inductive PValue where
  | vstr (s : String)
  | vint (n : Int)
  | vlist (items : List String)
deriving DecidableEq

/-- The value actually stored by `Person.define`: `textwrap.dedent(value)`
for strings (`isinstance(value, str)` branch), the value itself otherwise. -/
def define_stored_value : PValue → PValue
  | PValue.vstr s => PValue.vstr (dedentStr s)
  | v => v

/-! ## The `Person` agent (`src/marqetsim/agent/person.py`)

Data model from `src/marqetsim/schema/schema.py`: an action is
`{type, content, target}`, a cognitive state is `{goals, attention, emotions}`,
and each parsed provider record (`CognitiveActionModel`) pairs the two.
The source's `Action` class is named `PAction` here because Mathlib already
has a declaration `Action`. -/

/-- Source `schema.Action`: `{type, content, target}`. -/
structure PAction where
  type : String
  content : String
  target : String
deriving DecidableEq

/-- Source `schema.CognitiveState`: `{goals, attention, emotions}`. -/
structure PCognitiveState where
  goals : String
  attention : String
  emotions : String
deriving DecidableEq

/-- Source `schema.CognitiveActionModel`: one `{action, cognitive_state}` record of a
provider response (`subcontent` in `Person.act`). -/
structure ActionRecord where
  action : PAction
  cognitive_state : PCognitiveState
deriving DecidableEq

/-- A stimulus dict `{type, content, source}` as built by `Person.listen`. -/
structure Stimulus where
  type : String
  content : String
  source : String
deriving DecidableEq

/-- The `content` field of a stored memory event: `{"stimuli": [...]}` for
stimulus events, one `{action, cognitive_state}` record for action events. -/
inductive EventContent where
  | stimuli (items : List Stimulus)
  | actionRecord (rec : ActionRecord)
deriving DecidableEq

/-- One episodic memory event `{role, content, type, simulation_timestamp}`
as assembled by `Person._observe` / `Person.act`.  `simulation_timestamp` is
the value of `Person.iso_datetime()`, which is `None` when the environment
carries no datetime. -/
structure StoredEvent where
  role : String
  content : EventContent
  type : String
  simulation_timestamp : Option String
deriving DecidableEq

/-- The `Person` state touched by the claims: the persona configuration
`self._configuration["persona"]` (a dict, modelled as a lookup function),
the environment clock consulted by `iso_datetime`, the episodic memory log,
and the semantic memory's stored engram texts. -/
structure Person where
  persona : String → Option PValue
  currentDatetime : Option String
  episodicMemory : List StoredEvent
  semanticEngrams : List String

/-- Source `Person.iso_datetime` (`person.py` lines 119-130): the environment's
current datetime in ISO format, or `None` when absent. -/
def iso_datetime (p : Person) : Option String :=
  p.currentDatetime

/-- Source `Person.store_in_memory` (`person.py` lines 132-136): appends the event
to EPISODIC memory only — `self.episodic_memory.store(data)` is the sole
store; `self.semantic_memory` is not written. -/
def store_in_memory (p : Person) (data : StoredEvent) : Person :=
  { p with episodicMemory := p.episodicMemory ++ [data] }

/-- Source `Person._observe` (`person.py` lines 97-117): wraps the stimulus as
`{"stimuli": [stimulus]}`, attaches `iso_datetime()` and stores the event. -/
def observe (p : Person) (stimulus : Stimulus) : Person :=
  store_in_memory p
    { role := "user"
      content := EventContent.stimuli [stimulus]
      type := "stimulus"
      simulation_timestamp := iso_datetime p }

/-- Source `Person.listen` (`person.py` lines 92-95): builds
`{"type": "CONVERSATION", "content": message, "source": ""}` and observes it. -/
def listen (p : Person) (message : String) : Person :=
  observe p { type := "CONVERSATION", content := message, source := "" }

/-- Source `Person.define` (`person.py` lines 70-75): stores
`textwrap.dedent(value)` for string values and `value` otherwise under `key`
in `self._configuration["persona"]`.  The source performs NO validation of
`key` — every key is accepted. -/
def define (p : Person) (key : String) (value : PValue) : Person :=
  { p with persona := fun k =>
      if k = key then some (define_stored_value value) else p.persona k }

/-- A `Person` with empty persona, memories, and no environment datetime. -/
def emptyPerson : Person :=
  { persona := fun _ => none
    currentDatetime := none
    episodicMemory := []
    semanticEngrams := [] }

/-- C3 counterexample: `listen` stores the CONVERSATION stimulus event in
episodic memory but leaves semantic memory EMPTY — no derived engram is
stored, contradicting the claim that the event is stored in both memories. -/
theorem c3_listen_semantic_counterexample :
    (listen emptyPerson "hello").episodicMemory =
      [{ role := "user"
         content := EventContent.stimuli
           [{ type := "CONVERSATION", content := "hello", source := "" }]
         type := "stimulus"
         simulation_timestamp := none }] ∧
    (listen emptyPerson "hello").semanticEngrams = [] := by
  constructor
  · rfl
  · rfl

/-- C3 (amended): for every message, `listen` wraps it as a CONVERSATION
stimulus with empty source, attaches the environment timestamp and appends
the resulting event to EPISODIC memory only; the persona, the clock and the
SEMANTIC memory are left unchanged (no engram derivation is triggered). -/
theorem c3_listen_episodic_only (p : Person) (message : String) :
    listen p message =
      { persona := p.persona
        currentDatetime := p.currentDatetime
        episodicMemory := p.episodicMemory ++
          [{ role := "user"
             content := EventContent.stimuli
               [{ type := "CONVERSATION", content := message, source := "" }]
             type := "stimulus"
             simulation_timestamp := iso_datetime p }]
        semanticEngrams := p.semanticEngrams } :=
  rfl

/-- C6 counterexample: `define` accepts a key far outside any persona schema
and stores the value (no validation error is possible — `define` is total),
and a string value with leading whitespace is read back DEDENTED, not
exactly as passed in. -/
theorem c6_define_counterexample :
    (define emptyPerson "definitely_not_a_schema_key" (PValue.vint 7)).persona
        "definitely_not_a_schema_key" = some (PValue.vint 7) ∧
    (define emptyPerson "name" (PValue.vstr "  Joe")).persona "name" =
      some (PValue.vstr "Joe") ∧
    some (PValue.vstr "Joe") ≠ some (PValue.vstr "  Joe") := by
  refine ⟨rfl, ?_, by decide⟩
  decide

/-- C6 (amended): `define(key, value)` stores under EVERY key — unknown keys
are accepted, there is no schema validation — and a subsequent read of the
attribute returns the value exactly for non-string values, while string
values come back as `textwrap.dedent(value)` (exact only when the dedent
margin is empty). -/
theorem c6_define_read_back (p : Person) (key : String) (value : PValue) :
    (define p key value).persona key = some (define_stored_value value) := by
  simp [define]

/-! ## The `Person.act` loop (`person.py` lines 140-234) -/

/-- Source `Person.MAX_ACTIONS_BEFORE_DONE` (`person.py` line 32). -/
def MAX_ACTIONS_BEFORE_DONE : Nat := 15

/-- The `while` condition of `Person.act` (`person.py` line 207):
`(len(contents) == 0) or (not contents[-1]["action"]["type"] == "DONE")`. -/
def act_loop_continues (contents : List ActionRecord) : Bool :=
  match contents.getLast? with
  | none => true
  | some r => !(r.action.type == "DONE")

/-- The repetition test of `Person.act` (`person.py` lines 220-224):
`contents[-1]["action"] == contents[-2]["action"] == contents[-3]["action"]`.
Only evaluated by the loop when `len(contents) > 4`. -/
def last_three_actions_same (contents : List ActionRecord) : Bool :=
  match contents.reverse with
  | r1 :: r2 :: r3 :: _ => r1.action == r2.action && r1.action == r3.action
  | _ => false

/-- How one run of the `act` loop ended. -/
inductive ActExit where
  /-- Normal exit: the last produced action has type `DONE`. -/
  | doneAction
  /-- Source `len(contents) > MAX_ACTIONS_BEFORE_DONE`: force-stop with a warning
  (`person.py` lines 211-215). -/
  | capExceeded
  /-- Last three actions identical with more than 4 actions produced:
  force-stop with a warning (`person.py` lines 217-228). -/
  | repetition
  /-- The iteration budget (`fuel`) ran out with the loop still running:
  the source loop has NOT terminated within `fuel` iterations. -/
  | fuelOut
deriving DecidableEq

/-- The `while` loop of `Person.act` (`person.py` lines 207-231).
`responses step` is the list of `{action, cognitive_state}` records parsed
from the provider response of the `step`-th call to `aux_act_once`
(`_produce_message`); each record is appended to `contents` (the per-record
memory stores, cognitive-state updates and displays do not influence the
control flow and are not tracked here).  Returns the final `contents`, the
number of production steps performed, and how the loop ended;
`fuel` bounds the number of loop iterations modelled. -/
def act_loop (responses : Nat → List ActionRecord) :
    Nat → Nat → List ActionRecord → List ActionRecord × Nat × ActExit
  | 0, steps, contents => (contents, steps, ActExit.fuelOut)
  | fuel + 1, steps, contents =>
    if act_loop_continues contents then
      if contents.length > MAX_ACTIONS_BEFORE_DONE then
        (contents, steps, ActExit.capExceeded)
      else if contents.length > 4 ∧ last_three_actions_same contents then
        (contents, steps, ActExit.repetition)
      else
        act_loop responses fuel (steps + 1) (contents ++ responses steps)
    else
      (contents, steps, ActExit.doneAction)

/-- Source `Person.act(return_actions=True)`: run the loop from empty `contents`. -/
def act (responses : Nat → List ActionRecord) (fuel : Nat) :
    List ActionRecord × Nat × ActExit :=
  act_loop responses fuel 0 []

/-- A provider response stream each of whose responses is empty (the shape
the Anthropic client returns when all JSON parsing attempts fail). -/
def emptyResponses : Nat → List ActionRecord := fun _ => []

set_option maxRecDepth 4000 in
/-- C1 counterexample: with a provider that always returns an empty record
list, `contents` never grows, the `len(contents) > MAX_ACTIONS_BEFORE_DONE`
cap never fires, and the loop is still running after 100 production steps —
far beyond `MAX_ACTIONS_BEFORE_DONE + 1 = 16` (and stays running for any
budget).  The claim's "for every sequence of provider responses" is false. -/
theorem c1_act_termination_counterexample :
    act emptyResponses 100 = ([], 100, ActExit.fuelOut) ∧
    100 > MAX_ACTIONS_BEFORE_DONE + 1 := by
  constructor
  · decide
  · decide

/-- Key invariant: when every response is nonempty, `steps ≤ 16` and
`steps ≤ contents.length` are preserved and the loop ends (not by fuel)
within the remaining budget. -/
theorem act_loop_terminates (responses : Nat → List ActionRecord)
    (hne : ∀ k, responses k ≠ []) :
    ∀ fuel steps contents, steps ≤ contents.length →
      steps ≤ MAX_ACTIONS_BEFORE_DONE + 1 →
      MAX_ACTIONS_BEFORE_DONE + 2 - steps ≤ fuel →
      (act_loop responses fuel steps contents).2.2 ≠ ActExit.fuelOut ∧
      (act_loop responses fuel steps contents).2.1 ≤ MAX_ACTIONS_BEFORE_DONE + 1 := by
  intro fuel
  induction fuel with
  | zero =>
    intro steps contents _ hcap hfuel
    exfalso
    simp [MAX_ACTIONS_BEFORE_DONE] at hcap hfuel
    omega
  | succ n ih =>
    intro steps contents hlen hcap hfuel
    simp only [act_loop]
    by_cases hcont : act_loop_continues contents
    · simp only [if_pos hcont]
      by_cases hover : contents.length > MAX_ACTIONS_BEFORE_DONE
      · simp [if_pos hover, hcap]
      · simp only [if_neg hover]
        by_cases hrep : contents.length > 4 ∧ last_three_actions_same contents = true
        · simp [if_pos hrep, hcap]
        · simp only [if_neg hrep]
          have hgrow : 1 ≤ (responses steps).length :=
            List.length_pos.mpr (hne steps)
          refine ih (steps + 1) (contents ++ responses steps) ?_ ?_ ?_
          · simp only [List.length_append]
            omega
          · simp [MAX_ACTIONS_BEFORE_DONE] at hover ⊢
            omega
          · omega
    · simp [if_neg hcont, hcap]

/-- C1 (amended): for every sequence of provider responses EACH CONTAINING
AT LEAST ONE `{action, cognitive_state}` record, `Person.act` terminates
after at most `MAX_ACTIONS_BEFORE_DONE + 1` production steps even if no
response ever contains a `DONE` action: with any iteration budget of at
least `MAX_ACTIONS_BEFORE_DONE + 2` the loop exits (by `DONE`, the cap, or
repetition — never by exhausting the budget) having performed at most
`MAX_ACTIONS_BEFORE_DONE + 1` production steps, returning the partial list
without raising.  (With an empty response the source loop never terminates,
see the counterexample.) -/
theorem c1_act_terminates_nonempty_responses
    (responses : Nat → List ActionRecord) (hne : ∀ k, responses k ≠ [])
    (fuel : Nat) (hfuel : MAX_ACTIONS_BEFORE_DONE + 2 ≤ fuel) :
    (act responses fuel).2.2 ≠ ActExit.fuelOut ∧
    (act responses fuel).2.1 ≤ MAX_ACTIONS_BEFORE_DONE + 1 :=
  act_loop_terminates responses hne fuel 0 [] (Nat.zero_le _) (Nat.zero_le _)
    (by omega)

/-- A single-record response whose action type is `DONE`. -/
def doneRecord : ActionRecord :=
  { action := { type := "DONE", content := "", target := "" }
    cognitive_state := { goals := "", attention := "", emotions := "" } }

/-- C1 witness: the amended theorem applied to the stream that always
returns one `DONE` record, with budget 17. -/
theorem c1_act_terminates_nonempty_responses_witness :
    (act (fun _ => [doneRecord]) 17).2.2 ≠ ActExit.fuelOut ∧
    (act (fun _ => [doneRecord]) 17).2.1 ≤ MAX_ACTIONS_BEFORE_DONE + 1 :=
  c1_act_terminates_nonempty_responses (fun _ => [doneRecord])
    (fun _ => List.cons_ne_nil _ _) 17 (by decide)

/-- A single-record non-`DONE` response, repeated forever. -/
def talkRecord : ActionRecord :=
  { action := { type := "TALK", content := "hi", target := "" }
    cognitive_state := { goals := "", attention := "", emotions := "" } }

/-- C2 counterexample: with a provider that repeats the identical non-`DONE`
action forever, the loop does NOT stop at the third repetition: the
repetition valve is guarded by `len(contents) > 4`, so a fourth and a fifth
production step still happen and the loop stops only with FIVE identical
actions produced. -/
theorem c2_act_repetition_counterexample :
    act (fun _ => [talkRecord]) 30 =
      ([talkRecord, talkRecord, talkRecord, talkRecord, talkRecord], 5,
        ActExit.repetition) ∧
    ([talkRecord, talkRecord, talkRecord, talkRecord, talkRecord] :
      List ActionRecord).length ≠ 3 := by
  constructor
  · decide
  · decide

/-- C2 (amended): the repetition valve fires only once MORE THAN FOUR
actions have been produced: for every single-record response stream that
repeats one fixed non-`DONE` record, `Person.act` (with any sufficient
iteration budget) force-stops with exit `repetition` after exactly FIVE
produced actions — the third repetition alone does not stop the loop — and
returns the partial action list rather than failing the caller. -/
theorem c2_act_repetition_after_five (r : ActionRecord)
    (hnd : r.action.type ≠ "DONE") (fuel : Nat) (hfuel : 6 ≤ fuel) :
    act (fun _ => [r]) fuel =
      ([r, r, r, r, r], 5, ActExit.repetition) := by
  obtain ⟨m, rfl⟩ : ∃ m, fuel = m + 6 := ⟨fuel - 6, by omega⟩
  have hbeq : (r.action.type == "DONE") = false := by
    simp [hnd]
  simp [act, act_loop, act_loop_continues, last_three_actions_same,
    MAX_ACTIONS_BEFORE_DONE, hbeq]

/-- C2 witness: the amended theorem applied to the constant `TALK` response
stream with budget 6. -/
theorem c2_act_repetition_after_five_witness :
    act (fun _ => [talkRecord]) 6 =
      ([talkRecord, talkRecord, talkRecord, talkRecord, talkRecord], 5,
        ActExit.repetition) :=
  c2_act_repetition_after_five talkRecord (by decide) 6 (by decide)

/-! ## Anthropic response coercion (`src/marqetsim/llm/anthropic.py` lines 38-87)

`json.loads` is the Python standard library, modelled by an abstract
`parse : List Char → Option Json` where `none` stands for the raised
decode error.  The repair pass re-submits the malformed text to the backend
and parses the reply (`anthropic.py` lines 68-80); everything that can go
wrong inside that inner `try` — including the source's
`next_message["content"]` subscript on the SDK `Message` object and the
final `json.loads` — is modelled by a single oracle `repaired : Option Json`
(`none` = the inner `try` raised). -/

/-- A parsed Python JSON value. -/
inductive Json where
  | null
  | bool (b : Bool)
  | num (n : Int)
  | str (s : String)
  | arr (elems : List Json)
  | obj (fields : List (String × Json))

/-- Source `re.sub(r"\x60\x60\x60json\n|\x60\x60\x60", "", text)` (`anthropic.py`
line 49): scanning left to right, drop every occurrence of a ```json fence
opener (with its newline) and of a bare ``` fence. -/
def strip_code_fences : List Char → List Char
  | '`' :: '`' :: '`' :: 'j' :: 's' :: 'o' :: 'n' :: '\n' :: rest =>
      strip_code_fences rest
  | '`' :: '`' :: '`' :: rest => strip_code_fences rest
  | c :: rest => c :: strip_code_fences rest
  | [] => []

/-- Source `text.split("\n\n")` (`anthropic.py` line 55): split on the double
newline separator, non-overlapping, left to right. -/
def split_double_newline : List Char → List (List Char)
  | '\n' :: '\n' :: rest => [] :: split_double_newline rest
  | c :: rest =>
    match split_double_newline rest with
    | s :: ss => (c :: s) :: ss
    | [] => [[c]]
  | [] => [[]]

/-- Source `list_of_response[0].startswith` of an opening brace
(`anthropic.py` line 56). -/
def starts_with_brace : List Char → Bool
  | '\x7b' :: _ => true
  | _ => false

/-- The segments the split branch actually parses (`anthropic.py` lines
55-64): all segments when the first starts with `{`, otherwise all but the
first (tolerating a leading non-JSON preamble). -/
def coerce_candidates (text : List Char) : List (List Char) :=
  match split_double_newline text with
  | s :: rest => if starts_with_brace s then s :: rest else rest
  | [] => []

/-- The JSON coercion of `AnthropicAPIClient.send_message` (`anthropic.py`
lines 49-85), producing the `content` of the returned
`{"role": ..., "content": response_json}`:
strip code fences; try a direct parse (wrapped in a one-element list); on
failure parse each candidate segment (failing if ANY segment fails); on
failure use the repair pass result UNWRAPPED; if that also failed, fall back
to the dict `{"role": "assistant", "content": []}`.  Total by construction:
every Python failure path is caught by an `except` and lands in a later
case, so the coercion never raises to the caller. -/
def coerce_response (parse : List Char → Option Json) (repaired : Option Json)
    (text : List Char) : Json :=
  let stripped := strip_code_fences text
  match parse stripped with
  | some j => Json.arr [j]
  | none =>
    match (coerce_candidates stripped).mapM parse with
    | some js => Json.arr js
    | none =>
      match repaired with
      | some j => j
      | none => Json.obj [("role", Json.str "assistant"), ("content", Json.arr [])]

/-- C8 counterexample: when every parse attempt fails (a text of an opening
brace followed by `x` — one segment that `json.loads` rejects — and a failed
repair pass), the returned content is the fallback DICT
`{"role": "assistant", "content": []}`, which is NOT the explicit empty
action list `[]` the claim promises (the empty list sits one level deeper). -/
theorem c8_coerce_fallback_counterexample :
    coerce_response (fun _ => none) none "\x7bx".data =
      Json.obj [("role", Json.str "assistant"), ("content", Json.arr [])] ∧
    coerce_response (fun _ => none) none "\x7bx".data ≠ Json.arr [] := by
  refine ⟨rfl, ?_⟩
  intro h
  rw [show coerce_response (fun _ => none) none "\x7bx".data =
    Json.obj [("role", Json.str "assistant"), ("content", Json.arr [])] from rfl] at h
  exact Json.noConfusion h

/-- C8 (amended): the coercion is a total function of the response text and
the parse/repair outcomes — it never raises to the caller — and proceeds
exactly in the claimed order: code fences are stripped, a successful direct
parse is returned as a one-element list, otherwise the double-newline
segments (dropping a leading non-JSON preamble) are parsed, otherwise a
successful repair result is returned, and if all attempts fail the content
is the fallback dict `{"role": "assistant", "content": []}` — the explicit
empty action list wrapped in a dict, not the bare list — rather than an
exception. -/
theorem c8_coerce_response_spec (parse : List Char → Option Json)
    (repaired : Option Json) (text : List Char) :
    (∀ j, parse (strip_code_fences text) = some j →
      coerce_response parse repaired text = Json.arr [j]) ∧
    (∀ js, parse (strip_code_fences text) = none →
      (coerce_candidates (strip_code_fences text)).mapM parse = some js →
      coerce_response parse repaired text = Json.arr js) ∧
    (∀ j, parse (strip_code_fences text) = none →
      (coerce_candidates (strip_code_fences text)).mapM parse = none →
      repaired = some j → coerce_response parse repaired text = j) ∧
    (parse (strip_code_fences text) = none →
      (coerce_candidates (strip_code_fences text)).mapM parse = none →
      repaired = none →
      coerce_response parse repaired text =
        Json.obj [("role", Json.str "assistant"), ("content", Json.arr [])]) := by
  refine ⟨?_, ?_, ?_, ?_⟩
  · intro j hj
    simp only [coerce_response, hj]
  · intro js hdirect hsegs
    simp only [coerce_response, hdirect, hsegs]
  · intro j hdirect hsegs hrep
    simp only [coerce_response, hdirect, hsegs, hrep]
  · intro hdirect hsegs hrep
    simp only [coerce_response, hdirect, hsegs, hrep]

/-- C8 witness: the amended theorem applied to a concrete text made of the
preamble line, a blank line, and an unparseable brace segment (a tolerated
leading non-JSON segment followed by an unparseable one) with failing parse
and repair oracles: the all-fail branch yields the fallback dict. -/
theorem c8_coerce_response_spec_witness :
    coerce_response (fun _ => none) none "preamble\n\n\x7bx".data =
      Json.obj [("role", Json.str "assistant"), ("content", Json.arr [])] :=
  (c8_coerce_response_spec (fun _ => none) none "preamble\n\n\x7bx".data).2.2.2
    rfl rfl rfl

/-! ## OpenAI client retry loop (`src/marqetsim/llm/openai.py` lines 87-225)

Waiting times and `max_attempts` are Python floats, modelled by `ℚ`.
The backend is an oracle from the API-call index (number of calls made so
far) to the outcome of that call; the response cache file is modelled by its
content for the single request key being retried. -/

/-- The outcome of one raw model call, mirroring the `except` arms of
`send_message`: a successful response, `InvalidRequestError` /
`openai.BadRequestError` (return `None` immediately), `openai.RateLimitError`
and `NonTerminalError` (both back off and retry), and any other `Exception`
(logged, loop continues with no backoff). -/
inductive CallOutcome (α : Type) where
  | success (v : α)
  | invalidRequest
  | rateLimit
  | nonTerminalError
  | otherError
deriving DecidableEq

/-- Everything observable about one `send_message` run: the returned value
(`none` for the `return None` paths and for exhausted attempts), the
throttling sleeps (`time.sleep(waiting_time)` before an uncached call,
`openai.py` lines 173-177), the backoff sleeps performed inside
`aux_exponential_backoff`, the number of raw API calls, and the number of
cache lookups and writes. -/
structure SendTrace (α : Type) where
  result : Option α
  throttleSleeps : List ℚ
  backoffSleeps : List ℚ
  apiCalls : Nat
  cacheConsults : Nat
  cacheWrites : Nat
deriving DecidableEq

/-- Source `aux_exponential_backoff` (`openai.py` lines 113-126): raise a
non-positive waiting time to 2, sleep it, then multiply it by the backoff
factor.  Returns (slept duration, new waiting time). -/
def aux_exponential_backoff (waiting_time factor : ℚ) : ℚ × ℚ :=
  let w := if waiting_time ≤ 0 then 2 else waiting_time
  (w, w * factor)

/-- The `while i < default.get("max_attempts")` loop of `send_message`
(`openai.py` lines 149-221).  `i` increases by exactly 1 every iteration, so
the loop runs at most `⌈max_attempts⌉` iterations; `fuel` is that remaining
iteration count.  Each iteration: consult the cache when enabled (a constant
hit ends the call with no sleep and no API call); otherwise sleep the
current positive waiting time (throttling), call the backend, and dispatch
on the outcome — success returns the response (writing the cache when
enabled), an invalid request returns `None` immediately, a rate limit or
non-terminal error backs off and retries, any other exception retries with
no backoff.  Falling out of the loop returns `None`. -/
def send_message_loop (backend : Nat → CallOutcome α) (cacheApiCalls : Bool)
    (cached : Option α) (factor : ℚ) :
    Nat → Nat → ℚ → SendTrace α
  | 0, _, _ =>
    { result := none, throttleSleeps := [], backoffSleeps := []
      apiCalls := 0, cacheConsults := 0, cacheWrites := 0 }
  | fuel + 1, calls, wt =>
    let consults := if cacheApiCalls then 1 else 0
    match (if cacheApiCalls then cached else none) with
    | some v =>
      { result := some v, throttleSleeps := [], backoffSleeps := []
        apiCalls := 0, cacheConsults := consults, cacheWrites := 0 }
    | none =>
      let throttle := if 0 < wt then [wt] else []
      match backend calls with
      | CallOutcome.success v =>
        { result := some v, throttleSleeps := throttle, backoffSleeps := []
          apiCalls := 1, cacheConsults := consults
          cacheWrites := if cacheApiCalls then 1 else 0 }
      | CallOutcome.invalidRequest =>
        { result := none, throttleSleeps := throttle, backoffSleeps := []
          apiCalls := 1, cacheConsults := consults, cacheWrites := 0 }
      | CallOutcome.rateLimit =>
        let slept := aux_exponential_backoff wt factor
        let rest := send_message_loop backend cacheApiCalls cached factor fuel
          (calls + 1) slept.2
        { result := rest.result
          throttleSleeps := throttle ++ rest.throttleSleeps
          backoffSleeps := slept.1 :: rest.backoffSleeps
          apiCalls := 1 + rest.apiCalls
          cacheConsults := consults + rest.cacheConsults
          cacheWrites := rest.cacheWrites }
      | CallOutcome.nonTerminalError =>
        let slept := aux_exponential_backoff wt factor
        let rest := send_message_loop backend cacheApiCalls cached factor fuel
          (calls + 1) slept.2
        { result := rest.result
          throttleSleeps := throttle ++ rest.throttleSleeps
          backoffSleeps := slept.1 :: rest.backoffSleeps
          apiCalls := 1 + rest.apiCalls
          cacheConsults := consults + rest.cacheConsults
          cacheWrites := rest.cacheWrites }
      | CallOutcome.otherError =>
        let rest := send_message_loop backend cacheApiCalls cached factor fuel
          (calls + 1) wt
        { result := rest.result
          throttleSleeps := throttle ++ rest.throttleSleeps
          backoffSleeps := rest.backoffSleeps
          apiCalls := 1 + rest.apiCalls
          cacheConsults := consults + rest.cacheConsults
          cacheWrites := rest.cacheWrites }

/-- Source `OpenAIClient.send_message`: run the retry loop with `i = 0` and the
configured waiting time.  `i < max_attempts` with `i` incremented once per
iteration holds for exactly `⌈max_attempts⌉` values of `i` when
`max_attempts` is positive, and never otherwise. -/
def send_message (backend : Nat → CallOutcome α) (cacheApiCalls : Bool)
    (cached : Option α) (max_attempts factor waiting_time : ℚ) : SendTrace α :=
  send_message_loop backend cacheApiCalls cached factor
    (Int.toNat (Int.ceil max_attempts)) 0 waiting_time

/-- Source `default["max_attempts"]` (`openai.py` line 29) when `MAX_ATTEMPTS` is
absent from the configuration: `float(config["OpenAI"].get("MAX_ATTEMPTS",
"0.0")) = 0.0`. -/
def default_max_attempts : ℚ := 0

/-- A backend that fails the first two calls with a rate limit (a transient
error) and succeeds on the third. -/
def two_fail_backend (v : α) : Nat → CallOutcome α :=
  fun k => if k < 2 then CallOutcome.rateLimit else CallOutcome.success v

/-- If no call ever succeeds (and nothing is cached), the loop exhausts its
attempts and the result is `None`. -/
theorem send_message_loop_no_success (backend : Nat → CallOutcome α)
    (factor : ℚ) (hb : ∀ k x, backend k ≠ CallOutcome.success x) :
    ∀ fuel calls wt,
      (send_message_loop backend false none factor fuel calls wt).result = none := by
  intro fuel
  induction fuel with
  | zero => intro calls wt; rfl
  | succ n ih =>
    intro calls wt
    simp only [send_message_loop]
    cases hbc : backend calls with
    | success v => exact absurd hbc (hb calls v)
    | invalidRequest => rfl
    | rateLimit => simpa using ih (calls + 1) _
    | nonTerminalError => simpa using ih (calls + 1) _
    | otherError => simpa using ih (calls + 1) wt

/-- C9: on rate-limit failures `send_message` sleeps a backoff waiting time
that starts at the configured value (raised to 2 when configured as 0 or
less) and is multiplied by `exponential_backoff_factor` after every failed
attempt, retries up to `max_attempts` tries, and returns `None` after
exhausting all attempts; with a backend that fails the first 2 calls
transiently and succeeds on the 3rd (and `max_attempts ≥ 3`), it returns the
successful result and the backoff waits are `w` then `w * factor` (and
`2` then `2 * factor` when the configured wait is 0). -/
theorem c9_send_message_backoff (v : α) (ma f w : ℚ)
    (hf : 0 < f) (hw : 0 < w) (hma : 3 ≤ ma) :
    (send_message (two_fail_backend v) false none ma f w).result = some v ∧
    (send_message (two_fail_backend v) false none ma f w).backoffSleeps =
      [w, w * f] ∧
    (send_message (two_fail_backend v) false none ma f w).apiCalls = 3 ∧
    (send_message (two_fail_backend v) false none ma f 0).backoffSleeps =
      [2, 2 * f] ∧
    (∀ backend : Nat → CallOutcome α,
      (∀ k x, backend k ≠ CallOutcome.success x) →
      (send_message backend false none ma f w).result = none) := by
  have hceil : (3 : ℤ) ≤ Int.ceil ma := by
    have h2 : (2 : ℤ) < Int.ceil ma := Int.lt_ceil.mpr (by norm_num; linarith)
    omega
  obtain ⟨m, hm⟩ : ∃ m, Int.toNat (Int.ceil ma) = m + 3 :=
    ⟨Int.toNat (Int.ceil ma) - 3, by omega⟩
  have hw' : ¬(w ≤ 0) := not_le.mpr hw
  have hwf : 0 < w * f := mul_pos hw hf
  have hwf' : ¬(w * f ≤ 0) := not_le.mpr hwf
  have hwff : 0 < w * f * f := mul_pos hwf hf
  have h2f : (0 : ℚ) < 2 * f := by linarith
  have h2f' : ¬((2 : ℚ) * f ≤ 0) := not_le.mpr h2f
  have h2ff : (0 : ℚ) < 2 * f * f := mul_pos h2f hf
  refine ⟨?_, ?_, ?_, ?_, ?_⟩
  · simp [send_message, hm, send_message_loop, two_fail_backend,
      aux_exponential_backoff, hw, hw', hwf, hwf', hwff]
  · simp [send_message, hm, send_message_loop, two_fail_backend,
      aux_exponential_backoff, hw, hw', hwf, hwf', hwff]
  · simp [send_message, hm, send_message_loop, two_fail_backend,
      aux_exponential_backoff, hw, hw', hwf, hwf', hwff]
  · simp [send_message, hm, send_message_loop, two_fail_backend,
      aux_exponential_backoff, h2f, h2f', h2ff]
  · intro backend hb
    rw [send_message]
    exact send_message_loop_no_success backend f hb _ 0 w

/-- C9 witness: the theorem applied at `v = 7`, `max_attempts = 3`,
`factor = 5`, initial waiting time `1`. -/
theorem c9_send_message_backoff_witness :
    (send_message (two_fail_backend (7 : Nat)) false none 3 5 1).result =
      some 7 ∧
    (send_message (two_fail_backend (7 : Nat)) false none 3 5 1).backoffSleeps =
      [1, 1 * 5] ∧
    (send_message (two_fail_backend (7 : Nat)) false none 3 5 1).apiCalls = 3 ∧
    (send_message (two_fail_backend (7 : Nat)) false none 3 5 0).backoffSleeps =
      [2, 2 * 5] ∧
    (∀ backend : Nat → CallOutcome Nat,
      (∀ k x, backend k ≠ CallOutcome.success x) →
      (send_message backend false none 3 5 1).result = none) :=
  c9_send_message_backoff 7 3 5 1 (by norm_num) (by norm_num) (by norm_num)

/-- C10: when `max_attempts ≤ 0` — in particular at the code's default
`0.0` taken when `MAX_ATTEMPTS` is absent from configuration — the retry
loop body is never entered: `send_message` returns `None` with no backend
call, no cache consult or write, and no sleep of either kind. -/
theorem c10_send_message_zero_attempts (backend : Nat → CallOutcome α)
    (cacheApiCalls : Bool) (cached : Option α) (ma f w : ℚ) (hma : ma ≤ 0) :
    default_max_attempts ≤ 0 ∧
    (send_message backend cacheApiCalls cached ma f w).result = none ∧
    (send_message backend cacheApiCalls cached ma f w).apiCalls = 0 ∧
    (send_message backend cacheApiCalls cached ma f w).cacheConsults = 0 ∧
    (send_message backend cacheApiCalls cached ma f w).cacheWrites = 0 ∧
    (send_message backend cacheApiCalls cached ma f w).throttleSleeps = [] ∧
    (send_message backend cacheApiCalls cached ma f w).backoffSleeps = [] := by
  have hceil : Int.ceil ma ≤ 0 := Int.ceil_le.mpr (by exact_mod_cast hma)
  have hzero : Int.toNat (Int.ceil ma) = 0 := by omega
  refine ⟨by norm_num [default_max_attempts], ?_, ?_, ?_, ?_, ?_, ?_⟩ <;>
    simp [send_message, hzero, send_message_loop]

/-- C10 witness: the theorem applied at the default `max_attempts = 0.0`
with a backend that would succeed immediately and a warm enabled cache —
none of which are touched. -/
theorem c10_send_message_zero_attempts_witness :
    default_max_attempts ≤ 0 ∧
    (send_message (fun _ => CallOutcome.success (0 : Nat)) true (some 5)
      default_max_attempts 5 1).result = none ∧
    (send_message (fun _ => CallOutcome.success (0 : Nat)) true (some 5)
      default_max_attempts 5 1).apiCalls = 0 ∧
    (send_message (fun _ => CallOutcome.success (0 : Nat)) true (some 5)
      default_max_attempts 5 1).cacheConsults = 0 ∧
    (send_message (fun _ => CallOutcome.success (0 : Nat)) true (some 5)
      default_max_attempts 5 1).cacheWrites = 0 ∧
    (send_message (fun _ => CallOutcome.success (0 : Nat)) true (some 5)
      default_max_attempts 5 1).throttleSleeps = [] ∧
    (send_message (fun _ => CallOutcome.success (0 : Nat)) true (some 5)
      default_max_attempts 5 1).backoffSleeps = [] :=
  c10_send_message_zero_attempts (fun _ => CallOutcome.success 0) true (some 5)
    default_max_attempts 5 1 le_rfl
